import Mathlib

/-!
Verification of the ReMinder persistence layer
(`backend/gin-server/server/internal/db`): a shallow embedding of the
SQLite-backed relational collection (`sqlite.go`), the Firestore-backed
document collection (`firestore.go`) and the shared error taxonomy
(`db.go`), together with theorems settling the specification's claims
about field mapping, error translation and the collection operations.
-/

namespace ReMinder.DB

/-- Scalar values stored in record fields and database cells: the value
kinds handled by `setFieldValue` in `sqlite.go` (strings, integers,
booleans, and `time.Time` modelled as a natural-number timestamp). -/
inductive Val where
  | vStr (s : String)
  | vInt (n : Int)
  | vBool (b : Bool)
  | vTime (t : Nat)
deriving DecidableEq, Repr

/-- The zero value of a Go value's type (`reflect.Zero(reflect.TypeOf x)`). -/
def Val.zero : Val → Val
  | .vStr _ => .vStr ""
  | .vInt _ => .vInt 0
  | .vBool _ => .vBool false
  | .vTime _ => .vTime 0

/-- `isZeroOfUnderlyingType` from `sqlite.go`:
`reflect.DeepEqual(x, reflect.Zero(reflect.TypeOf(x)).Interface())`. -/
def isZeroOfUnderlyingType (v : Val) : Bool :=
  decide (v = v.zero)

/-- One struct field as reflection sees it: the Go field name, the `db`
struct tag (empty string when absent, as `Tag.Get` returns), the
`firestore` struct tag, and the current value. -/
structure Field where
  name : String
  dbTag : String
  fsTag : String
  value : Val
deriving DecidableEq, Repr

/-- A Go struct record: an ordered list of named fields. -/
structure Record where
  fields : List Field
deriving DecidableEq, Repr

/-- A value passed through `interface{}`: either a struct (after pointer
indirection) or something that is not a struct. -/
inductive GoData where
  | struct (r : Record)
  | nonStruct
deriving DecidableEq, Repr

/-- The sentinel error kinds declared in `db.go`. -/
inductive ErrKind where
  | notFound
  | duplicate
  | invalidInput
  | internal
  | connectionFailure
  | notImplemented
deriving DecidableEq, Repr

/-- An error crossing the `Collection` boundary: either it wraps (via
`%w` or direct return) one of the `db.go` sentinels, or it is an ad-hoc
`fmt.Errorf`/`errors.New` error wrapping no sentinel. -/
inductive DbErr where
  | taxonomy (k : ErrKind)
  | adhoc (msg : String)
deriving DecidableEq, Repr

/-- An error satisfies `errors.Is(err, sentinel)` for some taxonomy
sentinel exactly when it wraps one. -/
def DbErr.isTaxonomy : DbErr → Bool
  | .taxonomy _ => true
  | .adhoc _ => false

/-! ## Field mapper (`sqlite.go`) -/

/-- The rune loop of `camelToSnake`: the boolean records whether the
current rune is the first of the string (Go tests `i > 0` on the byte
index, which is positive exactly on non-first runes). An uppercase rune
is written lowercased, preceded by an underscore unless it is first;
other runes are written unchanged. -/
def camelToSnakeAux : Bool → List Char → List Char
  | _, [] => []
  | isFirst, c :: rest =>
    if c.isUpper then
      (if isFirst then [c.toLower] else ['_', c.toLower]) ++ camelToSnakeAux false rest
    else
      c :: camelToSnakeAux false rest

/-- `camelToSnake` from `sqlite.go`, without the cache layer. -/
def camelToSnake (s : String) : String :=
  ⟨camelToSnakeAux true s.data⟩

/-- The `fieldNameCache` (`sync.Map`) contents: an association list from
input string to converted string. -/
abbrev FieldNameCache := List (String × String)

/-- `camelToSnake` including its cache interaction: return the cached
result when present, otherwise compute, store, and return. -/
def camelToSnakeCached (s : String) (cache : FieldNameCache) :
    String × FieldNameCache :=
  match cache.lookup s with
  | some v => (v, cache)
  | none => (camelToSnake s, (s, camelToSnake s) :: cache)

/-- Column-name derivation used by `extractFieldsForInsert`,
`extractFieldsForUpdate` and `mapRowToStruct`: the `db` tag when
non-empty, else `camelToSnake` of the field name. -/
def columnNameOf (f : Field) : String :=
  if f.dbTag = "" then camelToSnake f.name else f.dbTag

/-- The field loop of `extractFieldsForInsert`: skip zero-valued fields;
for the rest, append the column name, a `?` placeholder and the value,
and capture the record's identifier when the column equals the primary
key and the value is a string. -/
def insertLoop (primaryKey : String) :
    List Field → List String → List String → List Val → String →
      List String × List String × List Val × String
  | [], columns, placeholders, values, id => (columns, placeholders, values, id)
  | f :: rest, columns, placeholders, values, id =>
    if isZeroOfUnderlyingType f.value then
      insertLoop primaryKey rest columns placeholders values id
    else
      let columnName := columnNameOf f
      let id' :=
        if columnName = primaryKey then
          match f.value with
          | .vStr s => s
          | _ => id
        else id
      insertLoop primaryKey rest (columns ++ [columnName]) (placeholders ++ ["?"])
        (values ++ [f.value]) id'

/-- `extractFieldsForInsert` from `sqlite.go`. -/
def extractFieldsForInsert (data : GoData) (primaryKey : String) :
    Except DbErr (List String × List String × List Val × String) :=
  match data with
  | .nonStruct => .error (.taxonomy .invalidInput)
  | .struct r => .ok (insertLoop primaryKey r.fields [] [] [] "")

/-- The field loop of `extractFieldsForUpdate`: skip zero-valued fields
and the field whose column name is `id`; for the rest append the
assignment `<column> = ?` and the value. -/
def updateLoop : List Field → List String → List Val → List String × List Val
  | [], updateFields, values => (updateFields, values)
  | f :: rest, updateFields, values =>
    if isZeroOfUnderlyingType f.value then
      updateLoop rest updateFields values
    else
      let columnName := columnNameOf f
      if columnName = "id" then
        updateLoop rest updateFields values
      else
        updateLoop rest (updateFields ++ [columnName ++ " = ?"]) (values ++ [f.value])

/-- Whether the record's type declares a field with the given Go name
(`reflect.Type.FieldByName`). -/
def hasFieldNamed (r : Record) (n : String) : Bool :=
  r.fields.any fun f => decide (f.name = n)

/-- `extractFieldsForUpdate` from `sqlite.go`; `now` stands for the
`time.Now().UTC()` timestamp appended for the `updated_at` column when
the record declares an `Updated_at` or `UpdatedAt` field. -/
def extractFieldsForUpdate (data : GoData) (now : Nat) :
    Except DbErr (List String × List Val) :=
  match data with
  | .nonStruct => .error (.taxonomy .invalidInput)
  | .struct r =>
    let p := updateLoop r.fields [] []
    if hasFieldNamed r "Updated_at" || hasFieldNamed r "UpdatedAt" then
      .ok (p.1 ++ ["updated_at = ?"], p.2 ++ [Val.vTime now])
    else
      .ok (p.1, p.2)

/-- The fields `extractFieldsForUpdate` keeps: non-zero and not mapping
to the `id` column. -/
def updatedField (f : Field) : Bool :=
  !isZeroOfUnderlyingType f.value && !(decide (columnNameOf f = "id"))

/-- A filter (`map[string]interface{}`) as a list of key/value entries. -/
abbrev Filter := List (String × Val)

/-- `buildWhereClause` from `sqlite.go`: each entry becomes
`<key> = ?` (the key concatenated verbatim), joined with ` AND `; the
values become the parameter list. It performs no validation and cannot
fail. -/
def buildWhereClause (filter : Filter) : String × List Val :=
  if filter.isEmpty then ("", [])
  else
    (String.intercalate " AND " (filter.map fun kv => kv.1 ++ " = ?"),
     filter.map fun kv => kv.2)

/-- The SELECT query text built by `GetAllByCondition`/`GetOne` before
the `LIMIT` suffix: `SELECT * FROM <table>` plus the WHERE clause when
non-empty. -/
def sqliteSelectQuery (tableName : String) (filter : Filter) : String × List Val :=
  let base := "SELECT * FROM " ++ tableName
  let wc := buildWhereClause filter
  (if wc.1 = "" then base else base ++ " WHERE " ++ wc.1, wc.2)

/-- The COUNT query text built by `Count`. -/
def sqliteCountQuery (tableName : String) (filter : Filter) : String × List Val :=
  let base := "SELECT COUNT(*) FROM " ++ tableName
  let wc := buildWhereClause filter
  (if wc.1 = "" then base else base ++ " WHERE " ++ wc.1, wc.2)

/-! ## Relational (SQLite) store model -/

/-- A stored row: the column/value pairs that were inserted (columns the
INSERT omitted are NULL and absent from the association list). -/
abbrev Row := List (String × Val)

/-- A table: the rows in insertion order. -/
abbrev Table := List Row

/-- The `*sql.DB` handle state: `database/sql` keeps the handle usable
after `Close` but every operation on it fails, which the `closed` flag
records. The single table models the one table a collection is bound
to. -/
structure SQLiteConn where
  closed : Bool
  table : Table
deriving DecidableEq, Repr

/-- `SQLiteDatabase` state: `conn` is nil until `Connect`. -/
structure SQLiteDatabase where
  conn : Option SQLiteConn
deriving DecidableEq, Repr

/-- `SQLiteDatabase.Close`: calls `conn.Close()` when the handle exists
but never sets `s.conn` back to nil, so later `GetConn` calls still
succeed and hand out the closed handle. -/
def sqliteClose (db : SQLiteDatabase) : SQLiteDatabase :=
  match db.conn with
  | none => db
  | some c => { conn := some { c with closed := true } }

/-- Whether inserting `row` violates the primary-key uniqueness
constraint: some stored row already holds the same primary-key value. -/
def uniqueViolation (t : Table) (row : Row) (primaryKey : String) : Bool :=
  match row.lookup primaryKey with
  | some v => t.any fun r => decide (r.lookup primaryKey = some v)
  | none => false

/-- `SQLiteCollection.Create`: `GetConn` failure is wrapped as
`ErrInternal`; extraction errors propagate; executing on a closed handle
fails with a driver error wrapped as `ErrInternal`; a uniqueness
violation is wrapped as `ErrDuplicate`; otherwise the row is appended
and the extracted id returned. -/
def sqliteCreate (db : SQLiteDatabase) (primaryKey : String) (data : GoData) :
    Except DbErr String × SQLiteDatabase :=
  match db.conn with
  | none => (.error (.taxonomy .internal), db)
  | some c =>
    match extractFieldsForInsert data primaryKey with
    | .error e => (.error e, db)
    | .ok out =>
      if c.closed then (.error (.taxonomy .internal), db)
      else
        let row := out.1.zip out.2.2.1
        if uniqueViolation c.table row primaryKey then
          (.error (.taxonomy .duplicate), db)
        else
          (.ok out.2.2.2, { conn := some { c with table := c.table ++ [row] } })

/-- `setFieldValue` from `sqlite.go`: set the target field only when the
scanned value's kind is accepted for the field's kind (an int64 also
sets a bool field); otherwise leave the field untouched. -/
def setFieldValue (fieldValue : Val) (val : Val) : Val :=
  match fieldValue, val with
  | .vStr _, .vStr s => .vStr s
  | .vInt _, .vInt n => .vInt n
  | .vBool _, .vBool b => .vBool b
  | .vBool _, .vInt n => .vBool (decide (n ≠ 0))
  | .vTime _, .vTime t => .vTime t
  | old, _ => old

/-- `mapRowToStruct` from `sqlite.go`: for each field of the result
struct, look its derived column name up in the row's column map and set
the field from the value when present (NULL/absent columns leave the
field untouched). -/
def mapRowToStruct (row : Row) (result : Record) : Record :=
  ⟨result.fields.map fun f =>
    match row.lookup (columnNameOf f) with
    | some v => { f with value := setFieldValue f.value v }
    | none => f⟩

/-- The zero struct of a record's type (`reflect.New(elemType)`): the
same fields with every value replaced by its type's zero value. -/
def zeroRec (r : Record) : Record :=
  ⟨r.fields.map fun f => { f with value := f.value.zero }⟩

/-- `SQLiteCollection.GetById`: `SELECT * WHERE <pk> = ?`; no row is
`ErrNotFound`, otherwise the first row is mapped into the result. -/
def sqliteGetById (db : SQLiteDatabase) (primaryKey : String) (id : String)
    (result : Record) : Except DbErr Record :=
  match db.conn with
  | none => .error (.taxonomy .internal)
  | some c =>
    if c.closed then .error (.taxonomy .internal)
    else
      match c.table.find? (fun row => decide (row.lookup primaryKey = some (.vStr id))) with
      | none => .error (.taxonomy .notFound)
      | some row => .ok (mapRowToStruct row result)

/-- A row satisfies the WHERE conjunction `<k> = ?` over the filter
entries. -/
def rowMatchesFilter (row : Row) (filter : Filter) : Bool :=
  filter.all fun kv => decide (row.lookup kv.1 = some kv.2)

/-- `SQLiteCollection.GetOne`: the filtered SELECT with `LIMIT 1`; no
matching row is `ErrNotFound`. -/
def sqliteGetOne (db : SQLiteDatabase) (filter : Filter) (result : Record) :
    Except DbErr Record :=
  match db.conn with
  | none => .error (.taxonomy .internal)
  | some c =>
    if c.closed then .error (.taxonomy .internal)
    else
      match c.table.find? (fun row => rowMatchesFilter row filter) with
      | none => .error (.taxonomy .notFound)
      | some row => .ok (mapRowToStruct row result)

/-- `SQLiteCollection.GetAllByCondition`: the caller's slice is reset to
an empty slice before the row loop appends one mapped element per
matching row, so `results` never contributes to the output; an empty
result set is success. -/
def sqliteGetAllByCondition (db : SQLiteDatabase) (filter : Filter)
    (elemShape : Record) (results : List Record) : Except DbErr (List Record) :=
  match db.conn with
  | none => .error (.taxonomy .internal)
  | some c =>
    if c.closed then .error (.taxonomy .internal)
    else
      let matched := c.table.filter fun row => rowMatchesFilter row filter
      let cleared : List Record := []
      .ok (matched.foldl (fun acc row => acc ++ [mapRowToStruct row (zeroRec elemShape)]) cleared)

/-- The semantic effect of one `SET <column> = ?` assignment of the
generated UPDATE on a stored row: overwrite the column when present,
otherwise add it. -/
def setColumn (row : Row) (col : String) (v : Val) : Row :=
  if row.any fun kv => decide (kv.1 = col) then
    row.map fun kv => if kv.1 = col then (col, v) else kv
  else row ++ [(col, v)]

/-- Apply every assignment of the generated UPDATE to a row. -/
def applyAssignments (row : Row) (assignments : List (String × Val)) : Row :=
  assignments.foldl (fun acc a => setColumn acc a.1 a.2) row

/-- The column/value pairs the UPDATE built from `extractFieldsForUpdate`
output sets: the kept fields (non-zero, not the id column) with their
values, plus `updated_at = now` when the record declares an `Updated_at`
or `UpdatedAt` field. -/
def updateAssignments (r : Record) (now : Nat) : List (String × Val) :=
  ((r.fields.filter updatedField).map fun f => (columnNameOf f, f.value)) ++
    (if hasFieldNamed r "Updated_at" || hasFieldNamed r "UpdatedAt"
     then [("updated_at", Val.vTime now)] else [])

/-- `SQLiteCollection.UpdateById`: `GetConn` failure is wrapped as
`ErrInternal`; the only `extractFieldsForUpdate` failure (non-struct
data) propagates as `InvalidInput`; executing on a closed handle fails
with a driver error wrapped as `ErrInternal`; zero affected rows (no row
whose primary-key column equals the id) is `ErrNotFound`; otherwise the
SET assignments are applied to every matching row. -/
def sqliteUpdateById (db : SQLiteDatabase) (primaryKey : String) (id : String)
    (data : GoData) (now : Nat) : Except DbErr Unit × SQLiteDatabase :=
  match db.conn with
  | none => (.error (.taxonomy .internal), db)
  | some c =>
    match data with
    | .nonStruct => (.error (.taxonomy .invalidInput), db)
    | .struct r =>
      if c.closed then (.error (.taxonomy .internal), db)
      else
        if (c.table.filter fun row =>
            decide (row.lookup primaryKey = some (.vStr id))).length = 0 then
          (.error (.taxonomy .notFound), db)
        else
          (.ok (), { conn := some { c with table := c.table.map (fun row =>
            if row.lookup primaryKey = some (.vStr id) then
              applyAssignments row (updateAssignments r now)
            else row) } })

/-- `SQLiteCollection.DeleteById`: `DELETE WHERE <pk> = ?`; zero
affected rows is `ErrNotFound`. -/
def sqliteDeleteById (db : SQLiteDatabase) (primaryKey : String) (id : String) :
    Except DbErr Unit × SQLiteDatabase :=
  match db.conn with
  | none => (.error (.taxonomy .internal), db)
  | some c =>
    if c.closed then (.error (.taxonomy .internal), db)
    else
      let remaining := c.table.filter fun row =>
        !(decide (row.lookup primaryKey = some (.vStr id)))
      if remaining.length = c.table.length then
        (.error (.taxonomy .notFound), db)
      else
        (.ok (), { conn := some { c with table := remaining } })

/-- `SQLiteCollection.Count`: `SELECT COUNT(*)` with the filter's WHERE
clause. -/
def sqliteCount (db : SQLiteDatabase) (filter : Filter) : Except DbErr Nat :=
  match db.conn with
  | none => .error (.taxonomy .internal)
  | some c =>
    if c.closed then .error (.taxonomy .internal)
    else .ok (c.table.filter fun row => rowMatchesFilter row filter).length

/-! ## Document (Firestore) store model -/

/-- `FirestoreDatabase`/`FirestoreCollection` state: whether the client
has been initialized by `Connect`, and the stored documents as
id/label-map pairs. -/
structure FirestoreState where
  clientInitialized : Bool
  docs : List (String × Row)
deriving DecidableEq, Repr

/-- `isZeroValue` from `firestore.go` (length test for strings, direct
comparisons for booleans and numbers, `IsZero` for `time.Time`). -/
def isZeroValue (v : Val) : Bool :=
  match v with
  | .vStr s => decide (s.length = 0)
  | .vBool b => !b
  | .vInt n => decide (n = 0)
  | .vTime t => decide (t = 0)

/-- The document label a field maps to: the first comma-separated part
of the `firestore` tag, falling back to the field's name when the tag
part is empty (`strings.Split` of the empty tag yields one empty
part). -/
def fsTagName (f : Field) : String :=
  let parts := f.fsTag.splitOn ","
  let n := parts.headD ""
  if n = "" then f.name else n

/-- Whether the `firestore` tag carries the `omitempty` option among its
parts after the first. -/
def fsOmitEmpty (f : Field) : Bool :=
  ((f.fsTag.splitOn ",").drop 1).contains "omitempty"

/-- `structToMap` from `firestore.go`: skip fields tagged `firestore:"-"`
and zero-valued fields tagged `omitempty`; map every other field's label
to its value. -/
def structToMap (data : GoData) : Except DbErr Row :=
  match data with
  | .nonStruct => .error (.adhoc "data is not a struct")
  | .struct r =>
    .ok (r.fields.foldl (fun acc f =>
      if f.fsTag = "-" then acc
      else if fsOmitEmpty f && isZeroValue f.value then acc
      else acc ++ [(fsTagName f, f.value)]) [])

/-- `FirestoreCollection.Create`: requires a struct with a non-empty
string `ID` field, then upserts the converted map at that document id.
Every failure is an ad-hoc `fmt.Errorf` error wrapping no taxonomy
sentinel. -/
def firestoreCreate (st : FirestoreState) (data : GoData) :
    Except DbErr String × FirestoreState :=
  if !st.clientInitialized then
    (.error (.adhoc "firestore client is not initialized"), st)
  else
    match data with
    | .nonStruct => (.error (.adhoc "data is not a struct"), st)
    | .struct r =>
      match r.fields.find? (fun f => decide (f.name = "ID")) with
      | none => (.error (.adhoc "struct does not have an ID field"), st)
      | some idField =>
        match idField.value with
        | .vStr docID =>
          if docID = "" then (.error (.adhoc "ID field cannot be empty"), st)
          else
            match structToMap (.struct r) with
            | .error _ => (.error (.adhoc "failed to convert struct to map"), st)
            | .ok dataMap =>
              (.ok docID,
               { st with
                  docs := (st.docs.filter fun d => !(decide (d.1 = docID))) ++
                    [(docID, dataMap)] })
        | _ => (.error (.adhoc "ID field must be a string"), st)

/-- Model of the Firestore client's `DocumentSnapshot.DataTo`: decode
each labelled value into the struct field carrying that label, leaving
fields whose label is absent untouched and skipping fields tagged
`firestore:"-"`. -/
def dataTo (m : Row) (result : Record) : Record :=
  ⟨result.fields.map fun f =>
    if f.fsTag = "-" then f
    else
      match m.lookup (fsTagName f) with
      | some v => { f with value := setFieldValue f.value v }
      | none => f⟩

/-- `FirestoreCollection.GetById`: a missing document yields the ad-hoc
error `document <id> not found` (built with `fmt.Errorf`, wrapping no
sentinel); a present document is decoded into the result. -/
def firestoreGetById (st : FirestoreState) (id : String) (result : Record) :
    Except DbErr Record :=
  if !st.clientInitialized then .error (.adhoc "firestore client is not initialized")
  else
    match st.docs.lookup id with
    | none => .error (.adhoc ("document " ++ id ++ " not found"))
    | some m => .ok (dataTo m result)

/-- `FirestoreCollection.GetOne`: equality query per filter entry,
limited to one document; an exhausted iterator yields `ErrNotFound`
(returned directly, so it does wrap the sentinel). -/
def firestoreGetOne (st : FirestoreState) (filter : Filter) (result : Record) :
    Except DbErr Record :=
  if !st.clientInitialized then .error (.adhoc "firestore client is not initialized")
  else
    match st.docs.find? (fun d => rowMatchesFilter d.2 filter) with
    | none => .error (.taxonomy .notFound)
    | some d => .ok (dataTo d.2 result)

/-- `reflect.Value.FieldByName("ID").SetString(doc.Ref.ID)` as performed
by `GetAllByCondition` on each decoded element when the struct has a
settable string `ID` field. -/
def setIdField (r : Record) (docRefId : String) : Record :=
  ⟨r.fields.map fun f =>
    if f.name = "ID" then
      match f.value with
      | .vStr _ => { f with value := .vStr docRefId }
      | _ => f
    else f⟩

/-- `FirestoreCollection.GetAllByCondition`: decode every matching
document into a fresh zero element, set its `ID` field from the document
reference, and append it to the caller's slice — which is never cleared,
so prior elements stay in front of the appended matches. -/
def firestoreGetAllByCondition (st : FirestoreState) (filter : Filter)
    (elemShape : Record) (results : List Record) : Except DbErr (List Record) :=
  if !st.clientInitialized then .error (.adhoc "firestore client is not initialized")
  else
    let docs := st.docs.filter fun d => rowMatchesFilter d.2 filter
    .ok (docs.foldl (fun acc d => acc ++ [setIdField (dataTo d.2 (zeroRec elemShape)) d.1])
      results)

/-- `FirestoreCollection.DeleteById`: Firestore's `Doc(id).Delete`
succeeds whether or not the document exists, so deleting a missing id is
success with no effect. -/
def firestoreDeleteById (st : FirestoreState) (id : String) :
    Except DbErr Unit × FirestoreState :=
  if !st.clientInitialized then
    (.error (.adhoc "firestore client is not initialized"), st)
  else
    (.ok (), { st with docs := st.docs.filter fun d => !(decide (d.1 = id)) })

/-- `FirestoreCollection.Count`: run the equality query and count the
documents by iteration. -/
def firestoreCount (st : FirestoreState) (filter : Filter) : Except DbErr Nat :=
  if !st.clientInitialized then .error (.adhoc "firestore client is not initialized")
  else .ok (st.docs.filter fun d => rowMatchesFilter d.2 filter).length

/-! ## Spec-side restatement of the column-name conversion (for C7) -/

/-- The spec's boundary rule, first half: insert an underscore before
each uppercase letter that is not the first character. -/
def specUnderscored : Bool → List Char → List Char
  | _, [] => []
  | isFirst, c :: rest =>
    (if c.isUpper && !isFirst then ['_', c] else [c]) ++ specUnderscored false rest

/-- The conversion exactly as the spec words it: insert an underscore
before each uppercase letter that is not the first character, then
lowercase the whole name. -/
def specCamelToSnake (s : String) : String :=
  ⟨(specUnderscored true s.data).map Char.toLower⟩

/-- The id accumulator of the `extractFieldsForInsert` loop in
isolation: for each non-zero field whose column name equals the primary
key, overwrite the id with the field's string value (non-string values
leave it unchanged). -/
def insertLoopId (pk : String) : List Field → String → String
  | [], id => id
  | f :: rest, id =>
    if isZeroOfUnderlyingType f.value then insertLoopId pk rest id
    else
      insertLoopId pk rest
        (if columnNameOf f = pk then
          match f.value with
          | .vStr s => s
          | _ => id
        else id)

/-! ## Helper lemmas -/

theorem toLower_of_not_upper (c : Char) (h : c.isUpper = false) : c.toLower = c := by
  simp [Char.isUpper] at h
  simp only [Char.toLower]
  split
  · rename_i hc
    exfalso
    obtain ⟨h1, h2⟩ := hc
    have hv1 : (65 : UInt32) ≤ c.val := h1
    have hv2 : (90 : UInt32) < c.val := h hv1
    have h3 : (90 : ℕ) < c.val.toNat := hv2
    have hcc : c.toNat = c.val.toNat := rfl
    omega
  · rfl

theorem toLower_underscore : Char.toLower '_' = '_' := by decide

theorem camelToSnakeAux_eq_spec (l : List Char) (b : Bool) :
    camelToSnakeAux b l = (specUnderscored b l).map Char.toLower := by
  induction l generalizing b with
  | nil => rfl
  | cons c rest ih =>
    cases hc : c.isUpper with
    | true =>
      cases b <;>
        simp [camelToSnakeAux, specUnderscored, hc, ih, toLower_underscore]
    | false =>
      simp [camelToSnakeAux, specUnderscored, hc, ih, toLower_of_not_upper c hc]

theorem foldl_append_singleton {α β : Type} (g : β → α) (l : List β) (init : List α) :
    l.foldl (fun acc x => acc ++ [g x]) init = init ++ l.map g := by
  induction l generalizing init with
  | nil => simp
  | cons x rest ih => simp [List.foldl_cons, ih]

theorem lookup_map_self (fs : List Field) (f : Field) (hmem : f ∈ fs)
    (hnodup : (fs.map columnNameOf).Nodup) :
    (fs.map fun g => (columnNameOf g, g.value)).lookup (columnNameOf f) = some f.value := by
  induction fs with
  | nil => cases hmem
  | cons g rest ih =>
    rw [List.map_cons, List.nodup_cons] at hnodup
    rcases List.mem_cons.mp hmem with h | h
    · subst h
      simp only [List.map_cons, List.lookup, beq_self_eq_true]
    · have hne : (columnNameOf f == columnNameOf g) = false := by
        rw [beq_eq_false_iff_ne]
        intro he
        exact hnodup.1 (he ▸ List.mem_map_of_mem columnNameOf h)
      simp only [List.map_cons, List.lookup, hne]
      exact ih h hnodup.2

theorem lookup_zip_none {β : Type} (cols : List String) (vals : List β) (k : String)
    (h : k ∉ cols) : (cols.zip vals).lookup k = none := by
  induction cols generalizing vals with
  | nil => rfl
  | cons c rest ih =>
    cases vals with
    | nil => rfl
    | cons v vs =>
      have hne : (k == c) = false := by
        rw [beq_eq_false_iff_ne]
        exact fun he => h (by simp [he])
      simp only [List.zip_cons_cons, List.lookup, hne]
      exact ih vs fun hm => h (List.mem_cons_of_mem c hm)

theorem setFieldValue_zero (v : Val) : setFieldValue v.zero v = v := by
  cases v <;> rfl

theorem insertLoop_eq (pk : String) (fs : List Field) (cols phs : List String)
    (vals : List Val) (id : String) :
    insertLoop pk fs cols phs vals id =
      (cols ++ (fs.filter fun f => !isZeroOfUnderlyingType f.value).map columnNameOf,
       phs ++ (fs.filter fun f => !isZeroOfUnderlyingType f.value).map (fun _ => "?"),
       vals ++ (fs.filter fun f => !isZeroOfUnderlyingType f.value).map Field.value,
       insertLoopId pk fs id) := by
  induction fs generalizing cols phs vals id with
  | nil => simp [insertLoop, insertLoopId]
  | cons f rest ih =>
    cases hz : isZeroOfUnderlyingType f.value with
    | true => simp [insertLoop, insertLoopId, hz, ih]
    | false => simp [insertLoop, insertLoopId, hz, ih]

theorem insertLoopId_unchanged (pk : String) (fs : List Field) (acc : String)
    (h : ∀ f ∈ fs, isZeroOfUnderlyingType f.value = false → ¬ (columnNameOf f = pk)) :
    insertLoopId pk fs acc = acc := by
  induction fs generalizing acc with
  | nil => rfl
  | cons f rest ih =>
    cases hz : isZeroOfUnderlyingType f.value with
    | true =>
      simp only [insertLoopId, hz, if_true, ite_true]
      exact ih acc fun g hg => h g (List.mem_cons_of_mem _ hg)
    | false =>
      have hne := h f (List.mem_cons_self _ _) hz
      simp only [insertLoopId, hz, Bool.false_eq_true, if_false, ite_false, hne]
      exact ih acc fun g hg => h g (List.mem_cons_of_mem _ hg)

theorem insertLoopId_capture (pk : String) (fs : List Field) (acc idv : String)
    (idf : Field) (hmem : idf ∈ fs) (hcol : columnNameOf idf = pk)
    (hval : idf.value = .vStr idv)
    (hnz : ∀ f ∈ fs, isZeroOfUnderlyingType f.value = false)
    (hnodup : (fs.map columnNameOf).Nodup) :
    insertLoopId pk fs acc = idv := by
  induction fs generalizing acc with
  | nil => cases hmem
  | cons f rest ih =>
    rw [List.map_cons, List.nodup_cons] at hnodup
    rcases List.mem_cons.mp hmem with h | h
    · subst h
      have hz := hnz idf (List.mem_cons_self _ _)
      rw [hval] at hz
      simp only [insertLoopId, hval, hz, Bool.false_eq_true, if_false, ite_false, hcol,
        if_true, ite_true]
      exact insertLoopId_unchanged pk rest idv fun g hg _ hgc =>
        hnodup.1 (by
          have hgm : columnNameOf g ∈ rest.map columnNameOf := List.mem_map_of_mem _ hg
          rwa [hgc, ← hcol] at hgm)
    · have hz := hnz f (List.mem_cons_self _ _)
      have hne : ¬ (columnNameOf f = pk) := by
        intro he
        refine hnodup.1 ?_
        rw [he, ← hcol]
        exact List.mem_map_of_mem _ h
      simp only [insertLoopId, hz, Bool.false_eq_true, if_false, ite_false, hne]
      exact ih acc h (fun g hg => hnz g (List.mem_cons_of_mem _ hg)) hnodup.2

theorem columnNameOf_set_value (f : Field) (v : Val) :
    columnNameOf { f with value := v } = columnNameOf f := rfl

theorem mapRowToStruct_roundtrip (r : Record)
    (hnodup : (r.fields.map columnNameOf).Nodup) :
    mapRowToStruct (r.fields.map fun f => (columnNameOf f, f.value)) (zeroRec r) = r := by
  obtain ⟨fs⟩ := r
  simp only [mapRowToStruct, zeroRec, List.map_map, Record.mk.injEq]
  have : ∀ f ∈ fs,
      (match (fs.map fun g => (columnNameOf g, g.value)).lookup
          (columnNameOf { f with value := f.value.zero }) with
        | some v => { { f with value := f.value.zero } with
            value := setFieldValue { f with value := f.value.zero }.value v }
        | none => { f with value := f.value.zero }) = f := by
    intro f hf
    rw [columnNameOf_set_value, lookup_map_self fs f hf (by simpa using hnodup)]
    simp only [setFieldValue_zero]
  calc (fs.map fun f =>
        (match (fs.map fun g => (columnNameOf g, g.value)).lookup
            (columnNameOf { f with value := f.value.zero }) with
          | some v => { { f with value := f.value.zero } with
              value := setFieldValue { f with value := f.value.zero }.value v }
          | none => { f with value := f.value.zero }))
      = fs.map id := List.map_congr_left fun f hf => this f hf
    _ = fs := List.map_id fs

theorem updateLoop_eq (fs : List Field) (ufs : List String) (vals : List Val) :
    updateLoop fs ufs vals =
      (ufs ++ (fs.filter updatedField).map (fun f => columnNameOf f ++ " = ?"),
       vals ++ (fs.filter updatedField).map Field.value) := by
  induction fs generalizing ufs vals with
  | nil => simp [updateLoop]
  | cons f rest ih =>
    cases hz : isZeroOfUnderlyingType f.value with
    | true => simp [updateLoop, updatedField, hz, ih]
    | false =>
      by_cases hid : columnNameOf f = "id"
      · simp [updateLoop, updatedField, hz, hid, ih]
      · simp [updateLoop, updatedField, hz, hid, ih]

theorem sqliteCreate_no_connectionFailure (db : SQLiteDatabase) (pk : String)
    (data : GoData) :
    ¬ ((sqliteCreate db pk data).1 = .error (.taxonomy .connectionFailure)) := by
  obtain ⟨conn⟩ := db
  cases conn with
  | none => simp [sqliteCreate]
  | some c =>
    cases data with
    | nonStruct => simp [sqliteCreate, extractFieldsForInsert]
    | struct r =>
      simp only [sqliteCreate, extractFieldsForInsert]
      split_ifs <;> simp

theorem sqliteGetById_no_connectionFailure (db : SQLiteDatabase) (pk id : String)
    (res : Record) :
    ¬ (sqliteGetById db pk id res = .error (.taxonomy .connectionFailure)) := by
  obtain ⟨conn⟩ := db
  cases conn with
  | none => simp [sqliteGetById]
  | some c =>
    simp only [sqliteGetById]
    split_ifs
    · simp
    · split <;> simp

theorem sqliteGetOne_no_connectionFailure (db : SQLiteDatabase) (filter : Filter)
    (res : Record) :
    ¬ (sqliteGetOne db filter res = .error (.taxonomy .connectionFailure)) := by
  obtain ⟨conn⟩ := db
  cases conn with
  | none => simp [sqliteGetOne]
  | some c =>
    simp only [sqliteGetOne]
    split_ifs
    · simp
    · split <;> simp

theorem sqliteGetAllByCondition_no_connectionFailure (db : SQLiteDatabase)
    (filter : Filter) (shape : Record) (rs : List Record) :
    ¬ (sqliteGetAllByCondition db filter shape rs =
        .error (.taxonomy .connectionFailure)) := by
  obtain ⟨conn⟩ := db
  cases conn with
  | none => simp [sqliteGetAllByCondition]
  | some c =>
    simp only [sqliteGetAllByCondition]
    split_ifs <;> simp

theorem sqliteUpdateById_no_connectionFailure (db : SQLiteDatabase) (pk id : String)
    (data : GoData) (now : Nat) :
    ¬ ((sqliteUpdateById db pk id data now).1 =
        .error (.taxonomy .connectionFailure)) := by
  obtain ⟨conn⟩ := db
  cases conn with
  | none => simp [sqliteUpdateById]
  | some c =>
    cases data with
    | nonStruct => simp [sqliteUpdateById]
    | struct r =>
      simp only [sqliteUpdateById]
      split_ifs <;> simp

theorem sqliteDeleteById_no_connectionFailure (db : SQLiteDatabase) (pk id : String) :
    ¬ ((sqliteDeleteById db pk id).1 = .error (.taxonomy .connectionFailure)) := by
  obtain ⟨conn⟩ := db
  cases conn with
  | none => simp [sqliteDeleteById]
  | some c =>
    simp only [sqliteDeleteById]
    split_ifs <;> simp

theorem sqliteCount_no_connectionFailure (db : SQLiteDatabase) (filter : Filter) :
    ¬ (sqliteCount db filter = .error (.taxonomy .connectionFailure)) := by
  obtain ⟨conn⟩ := db
  cases conn with
  | none => simp [sqliteCount]
  | some c =>
    simp only [sqliteCount]
    split_ifs <;> simp

instance {ε α : Type} [DecidableEq ε] [DecidableEq α] : DecidableEq (Except ε α) := fun x y =>
  match x, y with
  | .ok a, .ok b =>
    if h : a = b then .isTrue (congrArg Except.ok h)
    else .isFalse fun hh => h (Except.ok.inj hh)
  | .error a, .error b =>
    if h : a = b then .isTrue (congrArg Except.error h)
    else .isFalse fun hh => h (Except.error.inj hh)
  | .ok _, .error _ => .isFalse fun hh => Except.noConfusion hh
  | .error _, .ok _ => .isFalse fun hh => Except.noConfusion hh

/-! ## Claims -/

/-- C7: the storage identifier of a field is the explicit `db`-tag
override when declared, otherwise the field name with an underscore
inserted before each non-first uppercase letter and the whole name
lowercased (so `UserID` becomes `user_i_d` and `CreatedAt` becomes
`created_at`); repeated calls of the cached conversion on the same
string return the same result. -/
theorem C7_column_name_derivation :
    (∀ f : Field, ¬ (f.dbTag = "") → columnNameOf f = f.dbTag) ∧
    (∀ f : Field, f.dbTag = "" → columnNameOf f = camelToSnake f.name) ∧
    (∀ s : String, camelToSnake s = specCamelToSnake s) ∧
    camelToSnake "UserID" = "user_i_d" ∧
    camelToSnake "CreatedAt" = "created_at" ∧
    (∀ (s : String) (cache : FieldNameCache),
      (camelToSnakeCached s (camelToSnakeCached s cache).2).1 =
        (camelToSnakeCached s cache).1) := by
  refine ⟨?_, ?_, ?_, rfl, rfl, ?_⟩
  · intro f h
    simp [columnNameOf, h]
  · intro f h
    simp [columnNameOf, h]
  · intro s
    simp only [camelToSnake, specCamelToSnake, camelToSnakeAux_eq_spec]
  · intro s cache
    unfold camelToSnakeCached
    cases h : cache.lookup s with
    | some v => simp [h]
    | none => simp [h, List.lookup]

/-- Witness for C7 at concrete fields and cache states. -/
theorem C7_column_name_derivation_witness :
    columnNameOf ⟨"CreatedAt", "created_at", "", .vStr "x"⟩ = "created_at" ∧
    columnNameOf ⟨"UserID", "", "", .vStr "x"⟩ = camelToSnake "UserID" :=
  ⟨C7_column_name_derivation.1 ⟨"CreatedAt", "created_at", "", .vStr "x"⟩ (by decide),
   C7_column_name_derivation.2.1 ⟨"UserID", "", "", .vStr "x"⟩ rfl⟩

/-- C4: for an id matching no stored record, relational `DeleteById`
returns `NotFound` and leaves the database unchanged, while document
`DeleteById` returns success with no effect. -/
theorem C4_delete_missing_divergence
    (c : SQLiteConn) (hclosed : c.closed = false) (pk id : String)
    (hmiss : ∀ row ∈ c.table, ¬ (row.lookup pk = some (Val.vStr id)))
    (st : FirestoreState) (hcl : st.clientInitialized = true)
    (hmiss2 : ∀ d ∈ st.docs, ¬ (d.1 = id)) :
    sqliteDeleteById ⟨some c⟩ pk id = (.error (.taxonomy .notFound), ⟨some c⟩) ∧
    firestoreDeleteById st id = (.ok (), st) := by
  constructor
  · have hf : (c.table.filter fun row =>
        !(decide (row.lookup pk = some (Val.vStr id)))) = c.table :=
      List.filter_eq_self.mpr fun row hr => by simp [hmiss row hr]
    simp [sqliteDeleteById, hclosed, hf]
  · obtain ⟨ci, docs⟩ := st
    have hf : (docs.filter fun d => !(decide (d.1 = id))) = docs :=
      List.filter_eq_self.mpr fun d hd => by simp [hmiss2 d hd]
    subst hcl
    simp [firestoreDeleteById, hf]

/-- Witness for C4 on empty stores and a missing id. -/
theorem C4_delete_missing_divergence_witness :
    sqliteDeleteById ⟨some ⟨false, []⟩⟩ "id" "u1" =
      (.error (.taxonomy .notFound), ⟨some ⟨false, []⟩⟩) ∧
    firestoreDeleteById ⟨true, []⟩ "u1" = (.ok (), ⟨true, []⟩) :=
  C4_delete_missing_divergence ⟨false, []⟩ rfl "id" "u1" (by simp)
    ⟨true, []⟩ rfl (by simp)

/-- C5: for a filter matching zero records, on both backends `GetOne`
returns `NotFound`, while `GetAllByCondition` succeeds and sets the
result sequence to empty. -/
theorem C5_zero_match_reads
    (c : SQLiteConn) (hclosed : c.closed = false) (filter : Filter)
    (res shape : Record) (rs : List Record)
    (hmiss : ∀ row ∈ c.table, rowMatchesFilter row filter = false)
    (st : FirestoreState) (hcl : st.clientInitialized = true)
    (hmiss2 : ∀ d ∈ st.docs, rowMatchesFilter d.2 filter = false) :
    sqliteGetOne ⟨some c⟩ filter res = .error (.taxonomy .notFound) ∧
    sqliteGetAllByCondition ⟨some c⟩ filter shape rs = .ok [] ∧
    firestoreGetOne st filter res = .error (.taxonomy .notFound) ∧
    firestoreGetAllByCondition st filter shape [] = .ok [] := by
  have hfind : c.table.find? (fun row => rowMatchesFilter row filter) = none :=
    List.find?_eq_none.mpr fun row hr => by simp [hmiss row hr]
  have hfilter : (c.table.filter fun row => rowMatchesFilter row filter) = [] :=
    List.filter_eq_nil_iff.mpr fun row hr => by simp [hmiss row hr]
  have hfind2 : st.docs.find? (fun d => rowMatchesFilter d.2 filter) = none :=
    List.find?_eq_none.mpr fun d hd => by simp [hmiss2 d hd]
  have hfilter2 : (st.docs.filter fun d => rowMatchesFilter d.2 filter) = [] :=
    List.filter_eq_nil_iff.mpr fun d hd => by simp [hmiss2 d hd]
  refine ⟨?_, ?_, ?_, ?_⟩
  · simp [sqliteGetOne, hclosed, hfind]
  · simp [sqliteGetAllByCondition, hclosed, hfilter]
  · simp [firestoreGetOne, hcl, hfind2]
  · simp [firestoreGetAllByCondition, hcl, hfilter2]

/-- Witness for C5 on empty stores. -/
theorem C5_zero_match_reads_witness :
    sqliteGetOne ⟨some ⟨false, []⟩⟩ [("username", .vStr "x")] ⟨[]⟩ =
      .error (.taxonomy .notFound) ∧
    sqliteGetAllByCondition ⟨some ⟨false, []⟩⟩ [("username", .vStr "x")] ⟨[]⟩ [] = .ok [] ∧
    firestoreGetOne ⟨true, []⟩ [("username", .vStr "x")] ⟨[]⟩ =
      .error (.taxonomy .notFound) ∧
    firestoreGetAllByCondition ⟨true, []⟩ [("username", .vStr "x")] ⟨[]⟩ [] = .ok [] :=
  C5_zero_match_reads ⟨false, []⟩ rfl [("username", .vStr "x")] ⟨[]⟩ ⟨[]⟩ []
    (by simp) ⟨true, []⟩ rfl (by simp)

/-- C10: relational `GetAllByCondition` resets the caller's slice, so
its output is exactly the mapped matching rows whatever the slice held
before; document `GetAllByCondition` appends the mapped matching
documents after the slice's prior elements. -/
theorem C10_result_slice_handling
    (c : SQLiteConn) (hclosed : c.closed = false) (filter : Filter)
    (shape : Record) (rs : List Record)
    (st : FirestoreState) (hcl : st.clientInitialized = true) :
    sqliteGetAllByCondition ⟨some c⟩ filter shape rs =
      .ok ((c.table.filter fun row => rowMatchesFilter row filter).map
        fun row => mapRowToStruct row (zeroRec shape)) ∧
    firestoreGetAllByCondition st filter shape rs =
      .ok (rs ++ (st.docs.filter fun d => rowMatchesFilter d.2 filter).map
        fun d => setIdField (dataTo d.2 (zeroRec shape)) d.1) := by
  constructor
  · simp [sqliteGetAllByCondition, hclosed, foldl_append_singleton]
  · simp [firestoreGetAllByCondition, hcl, foldl_append_singleton]

/-- Witness for C10 with a non-empty prior slice. -/
theorem C10_result_slice_handling_witness :
    sqliteGetAllByCondition ⟨some ⟨false, []⟩⟩ [] ⟨[]⟩ [⟨[]⟩] = .ok [] ∧
    firestoreGetAllByCondition ⟨true, []⟩ [] ⟨[]⟩ [⟨[]⟩] = .ok [⟨[]⟩] :=
  C10_result_slice_handling ⟨false, []⟩ rfl [] ⟨[]⟩ [⟨[]⟩] ⟨true, []⟩ rfl

/-- C2: contrary to the claim, the filter-to-WHERE translation performs
no identifier validation: a key full of SQL metacharacters is
concatenated verbatim into the query text used by `GetOne`,
`GetAllByCondition` and `Count`, and the operations proceed without ever
returning `InvalidInput`. -/
theorem C2_filter_key_unvalidated :
    buildWhereClause [("invalid;column", Val.vStr "value")] =
      ("invalid;column = ?", [Val.vStr "value"]) ∧
    (sqliteSelectQuery "users" [("invalid;column", Val.vStr "value")]).1 =
      "SELECT * FROM users WHERE invalid;column = ?" ∧
    (sqliteCountQuery "users" [("invalid;column", Val.vStr "value")]).1 =
      "SELECT COUNT(*) FROM users WHERE invalid;column = ?" ∧
    sqliteGetOne ⟨some ⟨false, []⟩⟩ [("invalid;column", Val.vStr "value")] ⟨[]⟩ =
      .error (.taxonomy .notFound) ∧
    sqliteGetAllByCondition ⟨some ⟨false, []⟩⟩
      [("invalid;column", Val.vStr "value")] ⟨[]⟩ [] = .ok [] ∧
    sqliteCount ⟨some ⟨false, []⟩⟩ [("invalid;column", Val.vStr "value")] = .ok 0 := by
  refine ⟨?_, ?_, ?_, ?_, ?_, ?_⟩ <;> rfl

/-- C3: contrary to the claim, the document backend leaks untranslated
ad-hoc errors across the `Collection` boundary: `Create` with a
non-struct record or an empty identifier and `GetById` of a missing
document all return plain formatted errors wrapping none of the taxonomy
sentinels. -/
theorem C3_untranslated_document_errors :
    (firestoreCreate ⟨true, []⟩ .nonStruct).1 = .error (.adhoc "data is not a struct") ∧
    DbErr.isTaxonomy (.adhoc "data is not a struct") = false ∧
    (firestoreCreate ⟨true, []⟩ (.struct ⟨[⟨"ID", "id", "id", .vStr ""⟩]⟩)).1 =
      .error (.adhoc "ID field cannot be empty") ∧
    (firestoreCreate ⟨true, []⟩ (.struct ⟨[⟨"Name", "", "", .vStr "x"⟩]⟩)).1 =
      .error (.adhoc "struct does not have an ID field") ∧
    firestoreGetById ⟨true, []⟩ "u1" ⟨[]⟩ = .error (.adhoc "document u1 not found") ∧
    ¬ (firestoreGetById ⟨true, []⟩ "u1" ⟨[]⟩ = .error (.taxonomy .notFound)) := by
  refine ⟨rfl, rfl, rfl, rfl, rfl, by decide⟩

/-- C8 counterexample: after `Close`, relational `Create` fails with the
`Internal` taxonomy kind, not `ConnectionFailure`. -/
theorem C8_counterexample :
    (sqliteCreate (sqliteClose ⟨some ⟨false, []⟩⟩) "id"
      (.struct ⟨[⟨"ID", "id", "", .vStr "u1"⟩]⟩)).1 = .error (.taxonomy .internal) ∧
    ¬ ((sqliteCreate (sqliteClose ⟨some ⟨false, []⟩⟩) "id"
      (.struct ⟨[⟨"ID", "id", "", .vStr "u1"⟩]⟩)).1 =
        .error (.taxonomy .connectionFailure)) :=
  ⟨rfl, by decide⟩

/-- C8 (amended): after `Close` on the relational database, every one of
the seven collection operations (`Create`, `GetById`, `GetOne`,
`GetAllByCondition`, `UpdateById`, `DeleteById`, `Count`) on struct data
fails fast — without reconnecting or mutating state — but with the
`Internal` taxonomy kind (the closed-handle driver error is wrapped as
`ErrInternal`); and in no state does any relational collection operation
ever return `ConnectionFailure`. -/
theorem C8_use_after_close_is_internal
    (c : SQLiteConn) (pk id : String) (r shape res : Record) (filter : Filter)
    (rs : List Record) (now : Nat) (db : SQLiteDatabase) (data : GoData) :
    ((sqliteCreate (sqliteClose ⟨some c⟩) pk (.struct r)).1 =
        .error (.taxonomy .internal) ∧
      (sqliteCreate (sqliteClose ⟨some c⟩) pk (.struct r)).2 = sqliteClose ⟨some c⟩ ∧
      sqliteGetById (sqliteClose ⟨some c⟩) pk id res = .error (.taxonomy .internal) ∧
      sqliteGetOne (sqliteClose ⟨some c⟩) filter res = .error (.taxonomy .internal) ∧
      sqliteGetAllByCondition (sqliteClose ⟨some c⟩) filter shape rs =
        .error (.taxonomy .internal) ∧
      (sqliteUpdateById (sqliteClose ⟨some c⟩) pk id (.struct r) now).1 =
        .error (.taxonomy .internal) ∧
      (sqliteUpdateById (sqliteClose ⟨some c⟩) pk id (.struct r) now).2 =
        sqliteClose ⟨some c⟩ ∧
      (sqliteDeleteById (sqliteClose ⟨some c⟩) pk id).1 = .error (.taxonomy .internal) ∧
      (sqliteDeleteById (sqliteClose ⟨some c⟩) pk id).2 = sqliteClose ⟨some c⟩ ∧
      sqliteCount (sqliteClose ⟨some c⟩) filter = .error (.taxonomy .internal)) ∧
    (¬ ((sqliteCreate db pk data).1 = .error (.taxonomy .connectionFailure)) ∧
      ¬ (sqliteGetById db pk id res = .error (.taxonomy .connectionFailure)) ∧
      ¬ (sqliteGetOne db filter res = .error (.taxonomy .connectionFailure)) ∧
      ¬ (sqliteGetAllByCondition db filter shape rs =
          .error (.taxonomy .connectionFailure)) ∧
      ¬ ((sqliteUpdateById db pk id data now).1 =
          .error (.taxonomy .connectionFailure)) ∧
      ¬ ((sqliteDeleteById db pk id).1 = .error (.taxonomy .connectionFailure)) ∧
      ¬ (sqliteCount db filter = .error (.taxonomy .connectionFailure))) := by
  constructor
  · simp [sqliteClose, sqliteCreate, sqliteGetById, sqliteGetOne, sqliteGetAllByCondition,
      sqliteUpdateById, sqliteDeleteById, sqliteCount, extractFieldsForInsert]
  · exact ⟨sqliteCreate_no_connectionFailure db pk data,
      sqliteGetById_no_connectionFailure db pk id res,
      sqliteGetOne_no_connectionFailure db filter res,
      sqliteGetAllByCondition_no_connectionFailure db filter shape rs,
      sqliteUpdateById_no_connectionFailure db pk id data now,
      sqliteDeleteById_no_connectionFailure db pk id,
      sqliteCount_no_connectionFailure db filter⟩

/-- C6 counterexample: the update extraction does not include every
non-zero field — a record whose `ID` field holds the non-zero string
`u1` produces update assignments without the id column. -/
theorem C6_counterexample :
    extractFieldsForUpdate
      (.struct ⟨[⟨"ID", "id", "", .vStr "u1"⟩,
                 ⟨"Username", "username", "", .vStr "alice"⟩]⟩) 0 =
      .ok (["username = ?"], [Val.vStr "alice"]) ∧
    isZeroOfUnderlyingType (Val.vStr "u1") = false :=
  ⟨rfl, rfl⟩

/-- C6 (amended): insert extraction excludes exactly the zero-valued
fields and includes every non-zero field; update extraction excludes the
zero-valued fields and additionally the field mapping to the `id`
column, and appends an `updated_at` assignment carrying the current time
whenever the record declares an `Updated_at` or `UpdatedAt` field. -/
theorem C6_zero_value_omission (r : Record) (pk : String) (now : Nat) :
    (∃ idOut, extractFieldsForInsert (.struct r) pk =
      .ok ((r.fields.filter fun f => !isZeroOfUnderlyingType f.value).map columnNameOf,
           (r.fields.filter fun f => !isZeroOfUnderlyingType f.value).map (fun _ => "?"),
           (r.fields.filter fun f => !isZeroOfUnderlyingType f.value).map Field.value,
           idOut)) ∧
    extractFieldsForUpdate (.struct r) now =
      .ok ((r.fields.filter updatedField).map (fun f => columnNameOf f ++ " = ?") ++
            (if hasFieldNamed r "Updated_at" || hasFieldNamed r "UpdatedAt"
             then ["updated_at = ?"] else []),
           (r.fields.filter updatedField).map Field.value ++
            (if hasFieldNamed r "Updated_at" || hasFieldNamed r "UpdatedAt"
             then [Val.vTime now] else [])) := by
  constructor
  · exact ⟨insertLoopId pk r.fields "",
      by simp [extractFieldsForInsert, insertLoop_eq]⟩
  · cases hu : (hasFieldNamed r "Updated_at" || hasFieldNamed r "UpdatedAt") with
    | true => simp [extractFieldsForUpdate, updateLoop_eq, hu]
    | false => simp [extractFieldsForUpdate, updateLoop_eq, hu]

/-- C9: relational `Create` performs no identifier validation — when
every field mapping to the `id` column holds the empty string, the
zero-value skip drops the id column from the INSERT before the
identifier is captured, and `Create` succeeds returning the empty
string; the document backend, in contrast, rejects an empty `ID` with an
error. -/
theorem C9_no_relational_id_validation
    (c : SQLiteConn) (hclosed : c.closed = false) (r : Record)
    (hid : ∀ f ∈ r.fields, columnNameOf f = "id" → f.value = .vStr "")
    (st : FirestoreState) (hcl : st.clientInitialized = true)
    (r2 : Record) (f2 : Field)
    (hfind : r2.fields.find? (fun f => decide (f.name = "ID")) = some f2)
    (hval : f2.value = .vStr "") :
    (∃ cols phs vals, extractFieldsForInsert (.struct r) "id" = .ok (cols, phs, vals, "") ∧
      ¬ ("id" ∈ cols)) ∧
    (sqliteCreate ⟨some c⟩ "id" (.struct r)).1 = .ok "" ∧
    (firestoreCreate st (.struct r2)).1 = .error (.adhoc "ID field cannot be empty") := by
  have hnotin :
      ¬ ("id" ∈ (r.fields.filter fun f => !isZeroOfUnderlyingType f.value).map columnNameOf) := by
    intro hmem
    obtain ⟨f, hf, hfc⟩ := List.mem_map.mp hmem
    obtain ⟨hfr, hfz⟩ := List.mem_filter.mp hf
    have hv := hid f hfr hfc
    rw [hv] at hfz
    simp [isZeroOfUnderlyingType, Val.zero] at hfz
  have hidzero : insertLoopId "id" r.fields "" = "" :=
    insertLoopId_unchanged "id" r.fields "" fun f hf hz hc => by
      have hv := hid f hf hc
      rw [hv] at hz
      simp [isZeroOfUnderlyingType, Val.zero] at hz
  refine ⟨⟨(r.fields.filter fun f => !isZeroOfUnderlyingType f.value).map columnNameOf,
    (r.fields.filter fun f => !isZeroOfUnderlyingType f.value).map (fun _ => "?"),
    (r.fields.filter fun f => !isZeroOfUnderlyingType f.value).map Field.value,
    by simp only [extractFieldsForInsert, insertLoop_eq, List.nil_append, hidzero],
    hnotin⟩, ?_, ?_⟩
  · have hnone :
        (((r.fields.filter fun f => !isZeroOfUnderlyingType f.value).map columnNameOf).zip
          ((r.fields.filter fun f => !isZeroOfUnderlyingType f.value).map Field.value)).lookup
            "id" = none :=
      lookup_zip_none _ _ _ hnotin
    simp [sqliteCreate, extractFieldsForInsert, insertLoop_eq, hclosed, hidzero,
      uniqueViolation, hnone]
  · simp [firestoreCreate, hcl, hfind, hval]

/-- Witness for C9: a record whose tagged id field is empty, and a
document record with an empty `ID`. -/
theorem C9_no_relational_id_validation_witness :
    (∃ cols phs vals,
      extractFieldsForInsert
        (.struct ⟨[⟨"ID", "id", "", .vStr ""⟩, ⟨"Username", "username", "", .vStr "bob"⟩]⟩)
        "id" = .ok (cols, phs, vals, "") ∧ ¬ ("id" ∈ cols)) ∧
    (sqliteCreate ⟨some ⟨false, []⟩⟩ "id"
      (.struct ⟨[⟨"ID", "id", "", .vStr ""⟩, ⟨"Username", "username", "", .vStr "bob"⟩]⟩)).1 =
      .ok "" ∧
    (firestoreCreate ⟨true, []⟩ (.struct ⟨[⟨"ID", "", "", .vStr ""⟩]⟩)).1 =
      .error (.adhoc "ID field cannot be empty") :=
  C9_no_relational_id_validation ⟨false, []⟩ rfl
    ⟨[⟨"ID", "id", "", .vStr ""⟩, ⟨"Username", "username", "", .vStr "bob"⟩]⟩ (by decide)
    ⟨true, []⟩ rfl ⟨[⟨"ID", "", "", .vStr ""⟩]⟩ ⟨"ID", "", "", .vStr ""⟩ rfl rfl

/-- C1: for a struct record all of whose fields are non-zero, with
pairwise distinct column names, one of which is the `id` column holding
a non-empty string not yet present in the table, relational `Create`
succeeds returning that id and `GetById` with the same id returns a
record equal to the created one on every field. -/
theorem C1_create_then_getById_roundtrip
    (c : SQLiteConn) (hclosed : c.closed = false)
    (r : Record) (idv : String) (idf : Field)
    (hnz : ∀ f ∈ r.fields, isZeroOfUnderlyingType f.value = false)
    (hnodup : (r.fields.map columnNameOf).Nodup)
    (hmem : idf ∈ r.fields) (hcol : columnNameOf idf = "id")
    (hval : idf.value = .vStr idv) (hne : ¬ (idv = ""))
    (hfresh : ∀ row ∈ c.table, ¬ (row.lookup "id" = some (Val.vStr idv))) :
    ∃ db', sqliteCreate ⟨some c⟩ "id" (.struct r) = (.ok idv, db') ∧
      sqliteGetById db' "id" idv (zeroRec r) = .ok r := by
  have hfilter : (r.fields.filter fun f => !isZeroOfUnderlyingType f.value) = r.fields :=
    List.filter_eq_self.mpr fun f hf => by simp [hnz f hf]
  have hrow : (r.fields.map columnNameOf).zip (r.fields.map Field.value) =
      r.fields.map fun f => (columnNameOf f, f.value) := List.zip_map' _ _ _
  have hlookup : (r.fields.map fun f => (columnNameOf f, f.value)).lookup "id" =
      some (Val.vStr idv) := by
    have h := lookup_map_self r.fields idf hmem hnodup
    rwa [hcol, hval] at h
  have hid : insertLoopId "id" r.fields "" = idv :=
    insertLoopId_capture "id" r.fields "" idv idf hmem hcol hval hnz hnodup
  have huv : uniqueViolation c.table
      (r.fields.map fun f => (columnNameOf f, f.value)) "id" = false := by
    simp only [uniqueViolation, hlookup]
    rw [List.any_eq_false]
    intro row hrm
    simp [hfresh row hrm]
  refine ⟨⟨some ⟨c.closed, c.table ++ [r.fields.map fun f => (columnNameOf f, f.value)]⟩⟩,
    ?_, ?_⟩
  · simp only [sqliteCreate, extractFieldsForInsert, insertLoop_eq, hfilter, hclosed,
      Bool.false_eq_true, if_false, ite_false, List.nil_append, hrow, huv, hid]
  · have h1 : c.table.find?
        (fun row => decide (row.lookup "id" = some (Val.vStr idv))) = none :=
      List.find?_eq_none.mpr fun row hr => by simp [hfresh row hr]
    have h2 : List.find? (fun row => decide (row.lookup "id" = some (Val.vStr idv)))
        [r.fields.map fun f => (columnNameOf f, f.value)] =
        some (r.fields.map fun f => (columnNameOf f, f.value)) := by
      simp [List.find?, hlookup]
    simp only [sqliteGetById, hclosed, Bool.false_eq_true, if_false, ite_false,
      List.find?_append, h1, h2, Option.none_or]
    rw [mapRowToStruct_roundtrip r hnodup]

/-- Witness for C1: a concrete user-like record with string, integer,
boolean and timestamp fields, created in an empty table. -/
theorem C1_create_then_getById_roundtrip_witness :
    ∃ db', sqliteCreate ⟨some ⟨false, []⟩⟩ "id"
        (.struct ⟨[⟨"ID", "id", "", .vStr "u1"⟩,
                   ⟨"Username", "username", "", .vStr "alice"⟩,
                   ⟨"LoginCount", "login_count", "", .vInt 7⟩,
                   ⟨"IsPinned", "is_pinned", "", .vBool true⟩,
                   ⟨"CreatedAt", "created_at", "", .vTime 3⟩]⟩) = (.ok "u1", db') ∧
      sqliteGetById db' "id" "u1"
        (zeroRec ⟨[⟨"ID", "id", "", .vStr "u1"⟩,
                   ⟨"Username", "username", "", .vStr "alice"⟩,
                   ⟨"LoginCount", "login_count", "", .vInt 7⟩,
                   ⟨"IsPinned", "is_pinned", "", .vBool true⟩,
                   ⟨"CreatedAt", "created_at", "", .vTime 3⟩]⟩) =
        .ok ⟨[⟨"ID", "id", "", .vStr "u1"⟩,
              ⟨"Username", "username", "", .vStr "alice"⟩,
              ⟨"LoginCount", "login_count", "", .vInt 7⟩,
              ⟨"IsPinned", "is_pinned", "", .vBool true⟩,
              ⟨"CreatedAt", "created_at", "", .vTime 3⟩]⟩ :=
  C1_create_then_getById_roundtrip ⟨false, []⟩ rfl
    ⟨[⟨"ID", "id", "", .vStr "u1"⟩,
      ⟨"Username", "username", "", .vStr "alice"⟩,
      ⟨"LoginCount", "login_count", "", .vInt 7⟩,
      ⟨"IsPinned", "is_pinned", "", .vBool true⟩,
      ⟨"CreatedAt", "created_at", "", .vTime 3⟩]⟩ "u1" ⟨"ID", "id", "", .vStr "u1"⟩
    (by decide) (by decide) (by decide) rfl rfl (by decide) (by simp)

end ReMinder.DB
